import Mathlib

/-!
Verification development for the CBCT visualization platform's numeric core.

The definitions below are a shallow embedding of the TypeScript source:

* `windowTransform` embeds the per-pixel window/level mapping of
  `SliceViewer` (frontend/src/components/CBCTViewer.tsx, lines 1188-1195);
* `calculateCameraPosition`, `calculateFOV`, `calculateGridConfig`,
  `calculateCameraLimits` embed the adaptive configuration utility
  (the `calculate*` functions of the adaptive-config module);
* `handleSliceChange` embeds the MPR state transition of `App.tsx`;
* `finalOpacity` embeds the opacity derivation of `SegmentMesh`
  (CBCTViewer.tsx, lines 525-528);
* `volumeStats` embeds the statistics sampler of
  `PreSegmentationMeasurements.tsx` (lines 19-61);
* the `angle*` definitions and `calculateDistanceMeasurement` embed the
  measurement helpers of `AdvancedControls.tsx`.

JavaScript numbers are IEEE-754 doubles.  We model them by `JsNum`: an exact
rational, a signed infinity, or NaN.  Rounding of finite arithmetic is not
modelled (finite operations are exact rationals), but the special-value
propagation of every operation the embedded code performs is modelled
exactly, since division by zero and NaN propagation are what several claims
are about.  `Math.sqrt` and `Math.acos` have no exact rational counterpart;
square roots are handled by quantifying over any function satisfying
`IsJsSqrt` (the properties of `Math.sqrt` the proofs need), and `Math.acos`
is written with `Real.arccos` directly in the theorem statements.
-/

/-- A JavaScript number: an exact rational, a signed infinity
(`JsNum.inf true` is `+Infinity`, `JsNum.inf false` is `-Infinity`),
or `NaN`. -/
inductive JsNum where
  | num : ℚ → JsNum
  | inf : Bool → JsNum
  | nan : JsNum
deriving DecidableEq

/-- JavaScript `+` on `JsNum` (IEEE-754 special-value rules). -/
def jsAdd : JsNum → JsNum → JsNum
  | .nan, _ => .nan
  | _, .nan => .nan
  | .num a, .num b => .num (a + b)
  | .num _, .inf s => .inf s
  | .inf s, .num _ => .inf s
  | .inf s, .inf t => if s = t then .inf s else .nan

/-- JavaScript unary `-` on `JsNum`. -/
def jsNeg : JsNum → JsNum
  | .num a => .num (-a)
  | .inf s => .inf (!s)
  | .nan => .nan

/-- JavaScript `-` on `JsNum`. -/
def jsSub (a b : JsNum) : JsNum := jsAdd a (jsNeg b)

/-- JavaScript `*` on `JsNum` (`0 * Infinity = NaN`, signs multiply). -/
def jsMul : JsNum → JsNum → JsNum
  | .nan, _ => .nan
  | _, .nan => .nan
  | .num a, .num b => .num (a * b)
  | .num a, .inf s => if a = 0 then .nan else .inf (decide (0 < a) = s)
  | .inf s, .num a => if a = 0 then .nan else .inf (decide (0 < a) = s)
  | .inf s, .inf t => .inf (s = t)

/-- JavaScript `/` on `JsNum` (`0 / 0 = NaN`, `a / 0 = ±Infinity` for
`a ≠ 0`, finite over infinite is `0`; the finite zero is `+0`). -/
def jsDiv : JsNum → JsNum → JsNum
  | .nan, _ => .nan
  | _, .nan => .nan
  | .num a, .num b =>
      if b = 0 then (if a = 0 then .nan else .inf (decide (0 < a))) else .num (a / b)
  | .num _, .inf _ => .num 0
  | .inf s, .num b => if b = 0 then .inf s else .inf (s = decide (0 < b))
  | .inf _, .inf _ => .nan

/-- JavaScript `Math.min` on two `JsNum`s (`NaN` if either argument is). -/
def jsMin : JsNum → JsNum → JsNum
  | .nan, _ => .nan
  | _, .nan => .nan
  | .num a, .num b => .num (min a b)
  | .num a, .inf s => if s then .num a else .inf false
  | .inf s, .num a => if s then .num a else .inf false
  | .inf s, .inf t => .inf (s && t)

/-- JavaScript `Math.max` on two `JsNum`s (`NaN` if either argument is). -/
def jsMax : JsNum → JsNum → JsNum
  | .nan, _ => .nan
  | _, .nan => .nan
  | .num a, .num b => .num (max a b)
  | .num a, .inf s => if s then .inf true else .num a
  | .inf s, .num a => if s then .inf true else .num a
  | .inf s, .inf t => .inf (s || t)

/-- JavaScript `Math.abs` on `JsNum`. -/
def jsAbs : JsNum → JsNum
  | .num a => .num |a|
  | .inf _ => .inf true
  | .nan => .nan

/-- The window/level transform applied per pixel by `SliceViewer`
(CBCTViewer.tsx lines 1191-1194):

  `const minWindow = windowCenter - windowWidth / 2;`
  `let intensity = ((value - minWindow) / windowWidth) * 255;`
  `intensity = Math.max(0, Math.min(255, intensity));` -/
def windowTransform (value center width : ℚ) : JsNum :=
  let minWindow := center - width / 2
  let intensity := jsMul (jsDiv (.num (value - minWindow)) (.num width)) (.num 255)
  jsMax (.num 0) (jsMin (.num 255) intensity)

/-! ### Adaptive view configuration (adaptive-config utility module) -/

/-- Voxel dimensions of a scan, as passed to the adaptive-config
functions (`ScanDimensions` in the source). -/
structure ScanDimensions where
  width : ℚ
  height : ℚ
  depth : ℚ
deriving DecidableEq

/-- `Math.max(dimensions.width, dimensions.height, dimensions.depth)`,
the quantity every adaptive-config function starts from. -/
def maxDim (d : ScanDimensions) : ℚ := max d.width (max d.height d.depth)

/-- `calculateCameraPosition`: scale factor `maxDim / 128`, base distance
100, camera at `(distance, distance, distance)`. -/
def calculateCameraPosition (d : ScanDimensions) : ℚ × ℚ × ℚ :=
  let scaleFactor := maxDim d / 128
  let distance := 100 * scaleFactor
  (distance, distance, distance)

/-- `calculateFOV`: stepped thresholds on the largest dimension. -/
def calculateFOV (d : ScanDimensions) : ℚ :=
  if maxDim d > 512 then 60
  else if maxDim d > 256 then 55
  else if maxDim d > 128 then 50
  else 45

/-- Result of `calculateGridConfig` (`Math.ceil` produces an integer). -/
structure GridConfig where
  size : ℤ
  cellSize : ℚ
deriving DecidableEq

/-- `calculateGridConfig`: `size = Math.ceil(150 * scaleFactor)`,
`cellSize = Math.max(1, scaleFactor)`. -/
def calculateGridConfig (d : ScanDimensions) : GridConfig :=
  let scaleFactor := maxDim d / 128
  { size := ⌈(150 * scaleFactor : ℚ)⌉, cellSize := max 1 scaleFactor }

/-- Result of `calculateCameraLimits`. -/
structure CameraLimits where
  min : ℚ
  max : ℚ
deriving DecidableEq

/-- `calculateCameraLimits`: `min = Math.max(5, 10 * scaleFactor)`,
`max = Math.min(500, 200 * scaleFactor)`. -/
def calculateCameraLimits (d : ScanDimensions) : CameraLimits :=
  let scaleFactor := maxDim d / 128
  { min := max 5 (10 * scaleFactor), max := min 500 (200 * scaleFactor) }

/-- Doubling all three scan dimensions (used by the scale-invariance
property of the spec). -/
def doubleDims (d : ScanDimensions) : ScanDimensions :=
  ⟨2 * d.width, 2 * d.height, 2 * d.depth⟩

example : calculateCameraPosition ⟨128, 128, 128⟩ = (100, 100, 100) := by
  norm_num [calculateCameraPosition, maxDim]
example : calculateFOV ⟨128, 128, 128⟩ = 45 := by
  norm_num [calculateFOV, maxDim]
example : (calculateGridConfig ⟨129, 129, 129⟩).size = 152 := by
  norm_num [calculateGridConfig, maxDim, Int.ceil_eq_iff]
example : (calculateGridConfig ⟨258, 258, 258⟩).size = 303 := by
  norm_num [calculateGridConfig, maxDim, Int.ceil_eq_iff]
example : (calculateCameraLimits ⟨0, 0, 0⟩) = ⟨5, 0⟩ := by
  norm_num [calculateCameraLimits, maxDim]

/-! ### MPR slice-position state (App.tsx, `handleSliceChange`) -/

/-- The three anatomical axes used by the MPR views. -/
inductive MPRAxis where
  | axial
  | coronal
  | sagittal
deriving DecidableEq

/-- The `MPRSlicePositions` record tracked by `App.tsx`: one slice index
per axis plus the scan dimensions.  Indices are modelled as integers
(JavaScript numbers; the code itself imposes no range restriction). -/
structure MPRSlicePositions where
  axial : ℤ
  coronal : ℤ
  sagittal : ℤ
  dimensions : ℕ × ℕ × ℕ
deriving DecidableEq

/-- `handleSliceChange` (App.tsx lines 92-103): when metadata is absent it
returns early leaving the state unchanged; otherwise it sets the named
axis field to `index` as given and carries the other two fields over from
the previous state, defaulting a missing previous value to
`Math.floor(dimension/2)` (`dimensions[2]` for axial, `[1]` for coronal,
`[0]` for sagittal). -/
def handleSliceChange (metadata : Option (ℕ × ℕ × ℕ)) (axis : MPRAxis) (index : ℤ)
    (prev : Option MPRSlicePositions) : Option MPRSlicePositions :=
  match metadata with
  | none => prev
  | some dims =>
      some
        { axial := if axis = .axial then index
            else (prev.map MPRSlicePositions.axial).getD (dims.2.2 / 2 : ℕ)
          coronal := if axis = .coronal then index
            else (prev.map MPRSlicePositions.coronal).getD (dims.2.1 / 2 : ℕ)
          sagittal := if axis = .sagittal then index
            else (prev.map MPRSlicePositions.sagittal).getD (dims.1 / 2 : ℕ)
          dimensions := dims }

/-! ### Segment opacity (CBCTViewer.tsx, `SegmentMesh`, lines 525-528) -/

/-- The fields of `RenderingSettings` that the opacity computation reads
(`globalOpacity` is a required field of the interface; the whole settings
object may be absent). -/
structure RenderingSettings where
  globalOpacity : ℚ
deriving DecidableEq

/-- Per-segment render settings (`opacity`, `smoothness`, `visible`); the
whole object may be absent for a segment. -/
structure SegmentSettings where
  opacity : ℚ
  smoothness : ℚ
  visible : Bool
deriving DecidableEq

/-- The final opacity computed by `SegmentMesh`:

  `const segmentOpacity = segmentSettings?.opacity ?? 0.85;`
  `const globalOpacity = renderingSettings?.globalOpacity ?? 1.0;`
  `const finalOpacity = segmentOpacity * globalOpacity;` -/
def finalOpacity (segmentSettings : Option SegmentSettings)
    (renderingSettings : Option RenderingSettings) : ℚ :=
  let segmentOpacity := (segmentSettings.map SegmentSettings.opacity).getD (85 / 100)
  let globalOpacity := (renderingSettings.map RenderingSettings.globalOpacity).getD 1
  segmentOpacity * globalOpacity

example : finalOpacity none none = 85 / 100 := by norm_num [finalOpacity]

/-! ### Approximate measurement engine (AdvancedControls.tsx) -/

/-- Properties of JavaScript `Math.sqrt` used by the proofs: it maps `NaN`
to `NaN`, `+Infinity` to `+Infinity`, `-Infinity` and negative numbers to
`NaN`, and a nonnegative number to a nonnegative number.  The measurement
theorems quantify over any function with these properties, since an exact
square root is not rational-valued. -/
def IsJsSqrt (f : JsNum → JsNum) : Prop :=
  f .nan = .nan ∧ f (.inf true) = .inf true ∧ f (.inf false) = .nan ∧
    ∀ q : ℚ, (q < 0 → f (.num q) = .nan) ∧ (0 ≤ q → ∃ r, 0 ≤ r ∧ f (.num q) = .num r)

/-- One concrete function satisfying `IsJsSqrt`, used to instantiate
hypotheses in witness theorems (its value on nonnegative inputs is
irrelevant to the properties proved). -/
def jsSqrtModel : JsNum → JsNum
  | .nan => .nan
  | .inf true => .inf true
  | .inf false => .nan
  | .num q => if q < 0 then .nan else .num 0

theorem jsSqrtModel_isJsSqrt : IsJsSqrt jsSqrtModel := by
  refine ⟨rfl, rfl, rfl, fun q => ⟨fun h => ?_, fun h => ⟨0, le_refl 0, ?_⟩⟩⟩
  · simp [jsSqrtModel, h]
  · simp [jsSqrtModel, not_lt.mpr h]

/-- `calculateDistanceMeasurement` (AdvancedControls.tsx lines 269-291),
the part that computes the recorded value:

  `const estimatedDistance =`
  `  Math.abs(Math.sqrt((seg1.voxel_count || 0) - (seg2.voxel_count || 0))) * spacing[0];`
  `value: estimatedDistance / 10`

Voxel counts may be absent (`undefined || 0` gives 0); `sqrtFn` stands for
`Math.sqrt`. -/
def calculateDistanceMeasurement (sqrtFn : JsNum → JsNum)
    (count1 count2 : Option ℕ) (spacing0 : ℚ) : JsNum :=
  let estimatedDistance :=
    jsMul (jsAbs (sqrtFn (.num ((count1.getD 0 : ℚ) - (count2.getD 0 : ℚ))))) (.num spacing0)
  jsDiv estimatedDistance (.num 10)

example : calculateDistanceMeasurement jsSqrtModel (some 1) (some 2) 1 = .nan := by
  norm_num [calculateDistanceMeasurement, jsSqrtModel, jsAbs, jsMul, jsDiv]

/-- `(seg.voxel_count || 1) / 1000` — the scalar "position" the angle
measurement derives from a segment's voxel count (AdvancedControls.tsx
lines 304-307); `voxel_count || 1` turns an absent or zero count into 1. -/
def voxelScale (c : ℕ) : ℚ := (if c = 0 then 1 else (c : ℚ)) / 1000

/-- `const vec1 = v1 - v2` — scalar difference from the vertex segment. -/
def angleVec1 (c1 c2 : ℕ) : ℚ := voxelScale c1 - voxelScale c2

/-- `const vec2 = v3 - v2` — scalar difference from the vertex segment. -/
def angleVec2 (c3 c2 : ℕ) : ℚ := voxelScale c3 - voxelScale c2

/-- `const dotProduct = vec1 * vec2`. -/
def angleDot (c1 c2 c3 : ℕ) : ℚ := angleVec1 c1 c2 * angleVec2 c3 c2

/-- `const mag1 = Math.abs(vec1)`. -/
def angleMag1 (c1 c2 : ℕ) : ℚ := |angleVec1 c1 c2|

/-- `const mag2 = Math.abs(vec2)`. -/
def angleMag2 (c3 c2 : ℕ) : ℚ := |angleVec2 c3 c2|

/-- `Math.max(-1, Math.min(1, dotProduct / (mag1 * mag2)))` — the clamped
cosine passed to `Math.acos` when both magnitudes are positive. -/
def angleCosClamped (c1 c2 c3 : ℕ) : ℚ :=
  max (-1) (min 1 (angleDot c1 c2 c3 / (angleMag1 c1 c2 * angleMag2 c3 c2)))

/-! ### Volume statistics sampler
(PreSegmentationMeasurements.tsx, `volumeStats`, lines 19-61) -/

/-- `volumeData[z]?.[y]?.[x]` — optional-chained lookup into the nested
volume array; out-of-range access yields `undefined` (`none`). -/
def voxelAt (vol : List (List (List ℚ))) (z y x : ℕ) : Option ℚ :=
  match vol[z]? with
  | none => none
  | some plane =>
      match plane[y]? with
      | none => none
      | some row => row[x]?

/-- The indices visited by `for (let i = 0; i < n; i += 2)` — every second
index below `n` (the code samples every 2nd voxel for performance). -/
def sampleIndices (n : ℕ) : List ℕ :=
  (List.range n).filter fun i => i % 2 = 0

/-- The defined voxel values visited by the sampling loops of
`volumeStats`, in loop order: `z`, then `y`, then `x`, each striding by 2
over the dimensions from the metadata, skipping `undefined` values. -/
def sampledValues (vol : List (List (List ℚ))) (depth height width : ℕ) : List ℚ :=
  (sampleIndices depth).flatMap fun z =>
    (sampleIndices height).flatMap fun y =>
      (sampleIndices width).filterMap fun x => voxelAt vol z y x

/-- The record returned by `volumeStats` when the volume is non-empty.
`stdDev` is `Math.sqrt(varianceSum / count)`; the other fields are the
one-pass accumulation results. -/
structure VolumeStats where
  min : JsNum
  max : JsNum
  mean : JsNum
  stdDev : JsNum
  sampleCount : ℕ
deriving DecidableEq

/-- `volumeStats` (PreSegmentationMeasurements.tsx lines 19-61): returns
`null` when `volumeData` is absent/empty; otherwise accumulates
`count`, `sum`, `min` (from `Infinity`), `max` (from `-Infinity`) over the
strided sample, computes `mean = sum / count`, then in a second pass
`varianceSum = Σ (value - mean)²` and `stdDev = Math.sqrt(varianceSum / count)`.
`sqrtFn` stands for `Math.sqrt`. -/
def volumeStats (sqrtFn : JsNum → JsNum) (vol : List (List (List ℚ)))
    (depth height width : ℕ) : Option VolumeStats :=
  if vol = [] then none
  else
    let xs := sampledValues vol depth height width
    let count := xs.length
    let sum := xs.sum
    let mean := jsDiv (.num sum) (.num (count : ℚ))
    let varianceSum :=
      xs.foldl (fun acc x => jsAdd acc (jsMul (jsSub (.num x) mean) (jsSub (.num x) mean)))
        (.num 0)
    some
      { min := xs.foldl (fun m x => jsMin m (.num x)) (.inf true)
        max := xs.foldl (fun m x => jsMax m (.num x)) (.inf false)
        mean := mean
        stdDev := sqrtFn (jsDiv varianceSum (.num (count : ℚ)))
        sampleCount := count }

example : volumeStats jsSqrtModel [] 0 0 0 = none := by norm_num [volumeStats]

/-! ## Theorems -/

/-- C1: for every raw intensity `v`, `center`, and `width > 0`, the
windowing transform produces exactly
`clamp(((v − (center − width/2)) / width) × 255, 0, 255)`, and this value
always lies in `[0, 255]`, also for `v` far outside the window. -/
theorem windowTransform_pos_width (v c w : ℚ) (hw : 0 < w) :
    windowTransform v c w = .num (max 0 (min 255 ((v - (c - w / 2)) / w * 255))) ∧
    0 ≤ max 0 (min 255 ((v - (c - w / 2)) / w * 255)) ∧
    max 0 (min 255 ((v - (c - w / 2)) / w * 255)) ≤ 255 := by
  have hw' : w ≠ 0 := ne_of_gt hw
  refine ⟨?_, le_max_left _ _, max_le (by norm_num) (min_le_left _ _)⟩
  simp [windowTransform, jsDiv, jsMul, jsMin, jsMax, hw']

theorem windowTransform_pos_width_witness :
    (0 : ℚ) < 1000 ∧
    (windowTransform 1000 500 1000 =
        .num (max 0 (min 255 ((1000 - (500 - 1000 / 2)) / 1000 * 255))) ∧
      0 ≤ max 0 (min 255 (((1000 : ℚ) - (500 - 1000 / 2)) / 1000 * 255)) ∧
      max 0 (min 255 (((1000 : ℚ) - (500 - 1000 / 2)) / 1000 * 255)) ≤ 255) :=
  ⟨by norm_num, windowTransform_pos_width 1000 500 1000 (by norm_num)⟩

/-- C5: the code applies no policy for `width ≤ 0`.  At `width = 0` it
divides by zero: for `v = center` the pixel intensity is `NaN` (neither an
error signal nor the identity), while `v` above/below the center clamps to
255/0 through the intermediate infinity. -/
theorem windowTransform_zero_width_divides_by_zero :
    windowTransform 0 0 0 = JsNum.nan ∧
    windowTransform 1 0 0 = .num 255 ∧
    windowTransform (-1) 0 0 = .num 0 := by
  refine ⟨?_, ?_, ?_⟩ <;> norm_num [windowTransform, jsDiv, jsMul, jsMin, jsMax]

/-- C2 (counterexample): at all-zero dimensions the camera distance bounds
cross: `min = max(5, 0) = 5`, `max = min(500, 0) = 0`, so `min < max`
fails. -/
theorem calculateCameraLimits_cross_at_zero :
    ¬ ((calculateCameraLimits ⟨0, 0, 0⟩).min < (calculateCameraLimits ⟨0, 0, 0⟩).max) := by
  norm_num [calculateCameraLimits, maxDim]

/-- C2 (amended): the bounds are computed as `min = max(5, 10k)`,
`max = min(500, 200k)` with `k = maxDim/128`, and `min < max` holds
whenever `16/5 < maxDim < 6400`; it fails outside that range (e.g. for
all-zero dimensions). -/
theorem calculateCameraLimits_spec (d : ScanDimensions) :
    (calculateCameraLimits d).min = max 5 (10 * (maxDim d / 128)) ∧
    (calculateCameraLimits d).max = min 500 (200 * (maxDim d / 128)) ∧
    (16 / 5 < maxDim d → maxDim d < 6400 →
      (calculateCameraLimits d).min < (calculateCameraLimits d).max) := by
  refine ⟨rfl, rfl, fun h1 h2 => ?_⟩
  show max 5 (10 * (maxDim d / 128)) < min 500 (200 * (maxDim d / 128))
  refine max_lt (lt_min (by norm_num) (by linarith)) (lt_min (by linarith) (by linarith))

theorem calculateCameraLimits_spec_witness :
    (16 / 5 : ℚ) < maxDim ⟨128, 128, 128⟩ ∧ maxDim ⟨128, 128, 128⟩ < 6400 ∧
    (calculateCameraLimits ⟨128, 128, 128⟩).min < (calculateCameraLimits ⟨128, 128, 128⟩).max :=
  ⟨by norm_num [maxDim], by norm_num [maxDim],
    (calculateCameraLimits_spec ⟨128, 128, 128⟩).2.2 (by norm_num [maxDim])
      (by norm_num [maxDim])⟩

/-- Doubling all dimensions doubles the largest dimension. -/
theorem maxDim_doubleDims (d : ScanDimensions) : maxDim (doubleDims d) = 2 * maxDim d := by
  simp only [maxDim, doubleDims]
  rw [mul_max_of_nonneg _ _ (by norm_num : (0 : ℚ) ≤ 2),
    mul_max_of_nonneg _ _ (by norm_num : (0 : ℚ) ≤ 2)]

/-- C8 (counterexample): doubling the dimensions from `(129,129,129)` to
`(258,258,258)` does not double the grid size: `ceil(150·129/128) = 152`
but `ceil(150·258/128) = 303 ≠ 304`. -/
theorem gridSize_doubling_fails :
    ScanDimensions.mk 258 258 258 = doubleDims ⟨129, 129, 129⟩ ∧
    (calculateGridConfig ⟨129, 129, 129⟩).size = 152 ∧
    (calculateGridConfig ⟨258, 258, 258⟩).size = 303 ∧
    (calculateGridConfig ⟨258, 258, 258⟩).size ≠
      2 * (calculateGridConfig ⟨129, 129, 129⟩).size := by
  have h1 : (calculateGridConfig ⟨129, 129, 129⟩).size = 152 := by
    norm_num [calculateGridConfig, maxDim, Int.ceil_eq_iff]
  have h2 : (calculateGridConfig ⟨258, 258, 258⟩).size = 303 := by
    norm_num [calculateGridConfig, maxDim, Int.ceil_eq_iff]
  exact ⟨by norm_num [doubleDims], h1, h2, by rw [h1, h2]; norm_num⟩

/-- C8 (amended): doubling all three dimensions doubles the camera
distance exactly; the grid size doubles only up to the outer rounding
(`2·size − 1 ≤ size' ≤ 2·size`, and the lower case is attained, see the
counterexample); the FOV is unchanged when the doubling crosses none of
the 128/256/512 thresholds. -/
theorem adaptive_scale_doubling (d : ScanDimensions) :
    calculateCameraPosition (doubleDims d) =
      (2 * (calculateCameraPosition d).1, 2 * (calculateCameraPosition d).2.1,
        2 * (calculateCameraPosition d).2.2) ∧
    2 * (calculateGridConfig d).size - 1 ≤ (calculateGridConfig (doubleDims d)).size ∧
    (calculateGridConfig (doubleDims d)).size ≤ 2 * (calculateGridConfig d).size ∧
    (¬(maxDim d ≤ 128 ∧ 128 < maxDim (doubleDims d)) →
      ¬(maxDim d ≤ 256 ∧ 256 < maxDim (doubleDims d)) →
      ¬(maxDim d ≤ 512 ∧ 512 < maxDim (doubleDims d)) →
      calculateFOV (doubleDims d) = calculateFOV d) := by
  have hm : maxDim (doubleDims d) = 2 * maxDim d := maxDim_doubleDims d
  set m := maxDim d with hmdef
  have hgrid : (calculateGridConfig (doubleDims d)).size = ⌈(2 * (150 * (m / 128)) : ℚ)⌉ := by
    simp only [calculateGridConfig, hm]
    congr 1
    ring
  have hg : (calculateGridConfig d).size = ⌈(150 * (m / 128) : ℚ)⌉ := rfl
  refine ⟨?_, ?_, ?_, ?_⟩
  · simp only [calculateCameraPosition, hm]
    refine Prod.ext ?_ (Prod.ext ?_ ?_) <;> ring
  · rw [hgrid, hg]
    have h1 : ((⌈(150 * (m / 128) : ℚ)⌉ : ℚ)) < 150 * (m / 128) + 1 := Int.ceil_lt_add_one _
    have h2 : (2 * (150 * (m / 128)) : ℚ) ≤ (⌈(2 * (150 * (m / 128)) : ℚ)⌉ : ℚ) := Int.le_ceil _
    have hlt : ((2 * ⌈(150 * (m / 128) : ℚ)⌉ - 2 : ℤ) : ℚ) < ((⌈(2 * (150 * (m / 128)) : ℚ)⌉ : ℤ) : ℚ) := by
      push_cast
      linarith
    have hlt' : (2 * ⌈(150 * (m / 128) : ℚ)⌉ - 2 : ℤ) < ⌈(2 * (150 * (m / 128)) : ℚ)⌉ := by
      exact_mod_cast hlt
    omega
  · rw [hgrid, hg]
    have h1 : (150 * (m / 128) : ℚ) ≤ (⌈(150 * (m / 128) : ℚ)⌉ : ℚ) := Int.le_ceil _
    refine Int.ceil_le.mpr ?_
    push_cast
    linarith
  · intro h128 h256 h512
    simp only [calculateFOV, hm]
    rcases lt_or_le 512 m with h5 | h5
    · rw [if_pos (by linarith), if_pos (by linarith)]
    · rcases lt_or_le 256 m with h2 | h2
      · exact absurd ⟨h5, by linarith⟩ h512
      · rcases lt_or_le 128 m with h1 | h1
        · exact absurd ⟨h2, by linarith⟩ h256
        · have hd : 2 * m ≤ 128 := by
            by_contra hcon
            exact h128 ⟨h1, by linarith⟩
          rw [if_neg (by linarith), if_neg (by linarith), if_neg (by linarith),
            if_neg (by linarith), if_neg (by linarith), if_neg (by linarith)]

theorem adaptive_scale_doubling_witness :
    ¬(maxDim ⟨32, 32, 32⟩ ≤ 128 ∧ 128 < maxDim (doubleDims ⟨32, 32, 32⟩)) ∧
    ¬(maxDim ⟨32, 32, 32⟩ ≤ 256 ∧ 256 < maxDim (doubleDims ⟨32, 32, 32⟩)) ∧
    ¬(maxDim ⟨32, 32, 32⟩ ≤ 512 ∧ 512 < maxDim (doubleDims ⟨32, 32, 32⟩)) ∧
    calculateFOV (doubleDims ⟨32, 32, 32⟩) = calculateFOV ⟨32, 32, 32⟩ :=
  ⟨by norm_num [maxDim, doubleDims], by norm_num [maxDim, doubleDims],
    by norm_num [maxDim, doubleDims],
    (adaptive_scale_doubling ⟨32, 32, 32⟩).2.2.2 (by norm_num [maxDim, doubleDims])
      (by norm_num [maxDim, doubleDims]) (by norm_num [maxDim, doubleDims])⟩

/-- C3 (counterexample): `handleSliceChange` does not clamp the new index.
With dimensions `(4,4,4)` and previous state `(1,2,3)`, setting the axial
index to 999 stores 999, which is outside `[0, 4−1]`; the other two fields
are carried over. -/
theorem handleSliceChange_not_clamped :
    handleSliceChange (some (4, 4, 4)) .axial 999 (some ⟨1, 2, 3, (4, 4, 4)⟩) =
      some ⟨999, 2, 3, (4, 4, 4)⟩ ∧
    ¬ ((999 : ℤ) ≤ 4 - 1) := by
  exact ⟨rfl, by decide⟩

/-- C3 (amended): `handleSliceChange` updates only the named axis field,
storing the given index as passed (without clamping); when a previous
state exists the other two axis fields are carried over from it exactly,
and the dimensions are refreshed from the metadata. -/
theorem handleSliceChange_updates_only_named_axis (dims : ℕ × ℕ × ℕ)
    (p : MPRSlicePositions) (i : ℤ) :
    handleSliceChange (some dims) .axial i (some p) =
      some { axial := i, coronal := p.coronal, sagittal := p.sagittal, dimensions := dims } ∧
    handleSliceChange (some dims) .coronal i (some p) =
      some { axial := p.axial, coronal := i, sagittal := p.sagittal, dimensions := dims } ∧
    handleSliceChange (some dims) .sagittal i (some p) =
      some { axial := p.axial, coronal := p.coronal, sagittal := i, dimensions := dims } :=
  ⟨rfl, rfl, rfl⟩

/-- C4 (counterexample): with both settings objects absent, the final
opacity is `0.85`, not `1.0`: the segment factor defaults to `0.85`, so
the claim that both factors default to `1.0` fails. -/
theorem finalOpacity_default_not_one :
    finalOpacity none none = 85 / 100 ∧ finalOpacity none none ≠ 1 := by
  norm_num [finalOpacity]

/-- C4 (amended): `finalOpacity = segmentOpacity × globalOpacity`, where
the segment factor defaults to `0.85` and the global factor to `1.0` when
the corresponding settings object is unset. -/
theorem finalOpacity_product (s : SegmentSettings) (r : RenderingSettings) :
    finalOpacity (some s) (some r) = s.opacity * r.globalOpacity ∧
    finalOpacity none (some r) = 85 / 100 * r.globalOpacity ∧
    finalOpacity (some s) none = s.opacity * 1 ∧
    finalOpacity none none = 85 / 100 * 1 :=
  ⟨rfl, rfl, rfl, rfl⟩

/-- C10: whenever the second segment's voxel count exceeds the first's,
the distance measurement's recorded value is `NaN`: the code takes
`Math.sqrt` of the negative count difference before applying `Math.abs`,
and the `NaN` propagates through `* spacing[0]` and `/ 10`.  `sqrtFn` is
any function with the `Math.sqrt` properties in `IsJsSqrt`. -/
theorem calculateDistanceMeasurement_nan (sqrtFn : JsNum → JsNum) (hs : IsJsSqrt sqrtFn)
    (count1 count2 : Option ℕ) (s : ℚ) (h : count1.getD 0 < count2.getD 0) :
    calculateDistanceMeasurement sqrtFn count1 count2 s = JsNum.nan := by
  have hneg : ((count1.getD 0 : ℚ) - (count2.getD 0 : ℚ)) < 0 := by
    have h' : ((count1.getD 0 : ℕ) : ℚ) < ((count2.getD 0 : ℕ) : ℚ) := by exact_mod_cast h
    linarith
  have hnan := (hs.2.2.2 _).1 hneg
  simp [calculateDistanceMeasurement, hnan, jsAbs, jsMul, jsDiv]

theorem calculateDistanceMeasurement_nan_witness :
    IsJsSqrt jsSqrtModel ∧
    (some 100 : Option ℕ).getD 0 < (some 200 : Option ℕ).getD 0 ∧
    calculateDistanceMeasurement jsSqrtModel (some 100) (some 200) (2 / 10) = JsNum.nan :=
  ⟨jsSqrtModel_isJsSqrt, by decide,
    calculateDistanceMeasurement_nan jsSqrtModel jsSqrtModel_isJsSqrt (some 100) (some 200)
      (2 / 10) (by decide)⟩

/-- C9: the angle measurement produces only the two extreme values — the
"vectors" are scalar voxel-count differences, so after clamping, the
cosine passed to `Math.acos` is exactly `±1` whenever both magnitudes are
positive, giving 0° or 180°; and whenever either scalar difference is
zero, the guard `mag1 > 0 && mag2 > 0` fails and the angle stays at its
initial value 0.  The `if`-expression is the `angle` variable of
`calculateAngleMeasurement` (AdvancedControls.tsx lines 318-322). -/
theorem calculateAngleMeasurement_extreme (c1 c2 c3 : ℕ) :
    ((if 0 < angleMag1 c1 c2 ∧ 0 < angleMag2 c3 c2 then
        Real.arccos ((angleCosClamped c1 c2 c3 : ℚ) : ℝ) * (180 / Real.pi) else 0) = 0 ∨
      (if 0 < angleMag1 c1 c2 ∧ 0 < angleMag2 c3 c2 then
        Real.arccos ((angleCosClamped c1 c2 c3 : ℚ) : ℝ) * (180 / Real.pi) else 0) = 180) ∧
    (angleVec1 c1 c2 = 0 ∨ angleVec2 c3 c2 = 0 →
      (if 0 < angleMag1 c1 c2 ∧ 0 < angleMag2 c3 c2 then
        Real.arccos ((angleCosClamped c1 c2 c3 : ℚ) : ℝ) * (180 / Real.pi) else 0) = 0) := by
  by_cases hm : 0 < angleMag1 c1 c2 ∧ 0 < angleMag2 c3 c2
  · obtain ⟨h1, h2⟩ := hm
    have hv1 : angleVec1 c1 c2 ≠ 0 := by
      have := h1
      unfold angleMag1 at this
      exact abs_pos.mp this
    have hv2 : angleVec2 c3 c2 ≠ 0 := by
      have := h2
      unfold angleMag2 at this
      exact abs_pos.mp this
    have hprod : angleVec1 c1 c2 * angleVec2 c3 c2 ≠ 0 := mul_ne_zero hv1 hv2
    have habs : angleMag1 c1 c2 * angleMag2 c3 c2 = |angleVec1 c1 c2 * angleVec2 c3 c2| := by
      unfold angleMag1 angleMag2
      exact (abs_mul _ _).symm
    have hcos : angleCosClamped c1 c2 c3 = 1 ∨ angleCosClamped c1 c2 c3 = -1 := by
      rcases lt_or_gt_of_ne hprod with hneg | hpos
      · right
        have hq : angleDot c1 c2 c3 / (angleMag1 c1 c2 * angleMag2 c3 c2) = -1 := by
          unfold angleDot
          rw [habs, abs_of_neg hneg, div_neg, div_self hprod]
        unfold angleCosClamped
        rw [hq]
        norm_num
      · left
        have hq : angleDot c1 c2 c3 / (angleMag1 c1 c2 * angleMag2 c3 c2) = 1 := by
          unfold angleDot
          rw [habs, abs_of_pos hpos, div_self hprod]
        unfold angleCosClamped
        rw [hq]
        norm_num
    constructor
    · rcases hcos with hc | hc
      · left
        rw [if_pos ⟨h1, h2⟩, hc]
        push_cast
        rw [Real.arccos_one]
        ring
      · right
        rw [if_pos ⟨h1, h2⟩, hc]
        push_cast
        rw [Real.arccos_neg_one, mul_comm, div_mul_cancel₀ _ Real.pi_ne_zero]
    · intro hz
      rcases hz with hz | hz
      · exact absurd hz hv1
      · exact absurd hz hv2
  · rw [if_neg hm]
    exact ⟨Or.inl rfl, fun _ => rfl⟩

theorem calculateAngleMeasurement_extreme_witness :
    (angleVec1 1000 1000 = 0 ∨ angleVec2 3000 1000 = 0) ∧
    (if 0 < angleMag1 1000 1000 ∧ 0 < angleMag2 3000 1000 then
      Real.arccos ((angleCosClamped 1000 1000 3000 : ℚ) : ℝ) * (180 / Real.pi) else 0) = 0 :=
  ⟨Or.inl (by norm_num [angleVec1, voxelScale]),
    (calculateAngleMeasurement_extreme 1000 1000 3000).2
      (Or.inl (by norm_num [angleVec1, voxelScale]))⟩

/-! ### Helper lemmas for the statistics sampler -/

theorem sampledValues_nil (d h w : ℕ) : sampledValues [] d h w = [] := by
  simp [sampledValues, voxelAt]

theorem foldl_jsMin_num (l : List ℚ) (a : ℚ) :
    l.foldl (fun m x => jsMin m (.num x)) (.num a) = .num (l.foldl min a) := by
  induction l generalizing a with
  | nil => rfl
  | cons x t ih =>
    rw [List.foldl_cons, List.foldl_cons]
    exact ih (min a x)

theorem foldl_jsMax_num (l : List ℚ) (a : ℚ) :
    l.foldl (fun m x => jsMax m (.num x)) (.num a) = .num (l.foldl max a) := by
  induction l generalizing a with
  | nil => rfl
  | cons x t ih =>
    rw [List.foldl_cons, List.foldl_cons]
    exact ih (max a x)

theorem foldl_min_le (t : List ℚ) (a : ℚ) : t.foldl min a ≤ a := by
  induction t generalizing a with
  | nil => exact le_refl a
  | cons x t ih =>
    rw [List.foldl_cons]
    exact le_trans (ih (min a x)) (min_le_left a x)

theorem foldl_min_le_mem (t : List ℚ) (a y : ℚ) (hy : y ∈ t) : t.foldl min a ≤ y := by
  induction t generalizing a with
  | nil => cases hy
  | cons x t ih =>
    rw [List.foldl_cons]
    rcases List.mem_cons.mp hy with h | h
    · subst h
      exact le_trans (foldl_min_le t (min a y)) (min_le_right a y)
    · exact ih (min a x) h

theorem le_foldl_max (t : List ℚ) (a : ℚ) : a ≤ t.foldl max a := by
  induction t generalizing a with
  | nil => exact le_refl a
  | cons x t ih =>
    rw [List.foldl_cons]
    exact le_trans (le_max_left a x) (ih (max a x))

theorem mem_le_foldl_max (t : List ℚ) (a y : ℚ) (hy : y ∈ t) : y ≤ t.foldl max a := by
  induction t generalizing a with
  | nil => cases hy
  | cons x t ih =>
    rw [List.foldl_cons]
    rcases List.mem_cons.mp hy with h | h
    · subst h
      exact le_trans (le_max_right a y) (le_foldl_max t (max a y))
    · exact ih (max a x) h

/-- The one-pass `min` accumulation starting from `Infinity` yields a
rational that bounds every sampled value from below (nonempty sample). -/
theorem foldl_jsMin_inf (l : List ℚ) (hl : l ≠ []) :
    ∃ q : ℚ, l.foldl (fun m x => jsMin m (.num x)) (.inf true) = .num q ∧ ∀ x ∈ l, q ≤ x := by
  cases l with
  | nil => exact absurd rfl hl
  | cons x t =>
    refine ⟨t.foldl min x, ?_, ?_⟩
    · rw [List.foldl_cons]
      exact foldl_jsMin_num t x
    · intro y hy
      rcases List.mem_cons.mp hy with h | h
      · subst h
        exact foldl_min_le t y
      · exact foldl_min_le_mem t x y h

/-- The one-pass `max` accumulation starting from `-Infinity` yields a
rational that bounds every sampled value from above (nonempty sample). -/
theorem foldl_jsMax_inf (l : List ℚ) (hl : l ≠ []) :
    ∃ q : ℚ, l.foldl (fun m x => jsMax m (.num x)) (.inf false) = .num q ∧ ∀ x ∈ l, x ≤ q := by
  cases l with
  | nil => exact absurd rfl hl
  | cons x t =>
    refine ⟨t.foldl max x, ?_, ?_⟩
    · rw [List.foldl_cons]
      exact foldl_jsMax_num t x
    · intro y hy
      rcases List.mem_cons.mp hy with h | h
      · subst h
        exact le_foldl_max t y
      · exact mem_le_foldl_max t x y h

theorem length_mul_le_sum (l : List ℚ) (c : ℚ) (h : ∀ x ∈ l, c ≤ x) :
    (l.length : ℚ) * c ≤ l.sum := by
  induction l with
  | nil => simp
  | cons x t ih =>
    have hx : c ≤ x := h x (List.mem_cons_self x t)
    have ht : (t.length : ℚ) * c ≤ t.sum := ih fun y hy => h y (List.mem_cons_of_mem x hy)
    simp only [List.length_cons, List.sum_cons]
    push_cast
    linarith

theorem sum_le_length_mul (l : List ℚ) (c : ℚ) (h : ∀ x ∈ l, x ≤ c) :
    l.sum ≤ (l.length : ℚ) * c := by
  induction l with
  | nil => simp
  | cons x t ih =>
    have hx : x ≤ c := h x (List.mem_cons_self x t)
    have ht : t.sum ≤ (t.length : ℚ) * c := ih fun y hy => h y (List.mem_cons_of_mem x hy)
    simp only [List.length_cons, List.sum_cons]
    push_cast
    linarith

/-- The second-pass variance accumulation stays on rational values when
the mean is a rational. -/
theorem foldl_var_num (l : List ℚ) (mm : ℚ) (a : ℚ) :
    l.foldl
        (fun acc x => jsAdd acc (jsMul (jsSub (.num x) (.num mm)) (jsSub (.num x) (.num mm))))
        (.num a) =
      .num (l.foldl (fun acc x => acc + (x + -mm) * (x + -mm)) a) := by
  induction l generalizing a with
  | nil => rfl
  | cons x t ih =>
    rw [List.foldl_cons, List.foldl_cons]
    exact ih (a + (x + -mm) * (x + -mm))

theorem foldl_var_nonneg (l : List ℚ) (mm : ℚ) (a : ℚ) (ha : 0 ≤ a) :
    0 ≤ l.foldl (fun acc x => acc + (x + -mm) * (x + -mm)) a := by
  induction l generalizing a with
  | nil => exact ha
  | cons x t ih =>
    rw [List.foldl_cons]
    exact ih _ (add_nonneg ha (mul_self_nonneg _))

/-- C6: when the volume array is non-empty but every sampled voxel is
`undefined` (here: a volume whose only row is empty, with metadata
dimensions `(1,1,1)`), `volumeStats` does not return `null` — it returns
a record with `mean = 0/0 = NaN`, `stdDev = NaN`, `min = Infinity`,
`max = -Infinity`.  Only the genuinely empty volume returns `null`. -/
theorem volumeStats_nan_on_all_undefined :
    volumeStats jsSqrtModel [[[]]] 1 1 1 =
      some { min := .inf true, max := .inf false, mean := .nan, stdDev := .nan,
             sampleCount := 0 } ∧
    volumeStats jsSqrtModel [] 1 1 1 = none ∧
    ∀ q : ℚ, JsNum.nan ≠ JsNum.num q := by
  refine ⟨?_, ?_, fun q h => by cases h⟩
  · rfl
  · rfl

/-- C7: for every non-empty sampled voxel set, `volumeStats` returns a
record whose `min`, `mean`, `max` are (rational) numbers satisfying
`min ≤ mean ≤ max`, and whose `stdDev = Math.sqrt(varianceSum/count)` is a
nonnegative number (the square-root argument is nonnegative, so no `NaN`
arises).  `sqrtFn` is any function with the `Math.sqrt` properties of
`IsJsSqrt`. -/
theorem volumeStats_bounds (sqrtFn : JsNum → JsNum) (hs : IsJsSqrt sqrtFn)
    (vol : List (List (List ℚ))) (depth height width : ℕ)
    (hne : sampledValues vol depth height width ≠ []) :
    ∃ (st : VolumeStats) (a b m r : ℚ),
      volumeStats sqrtFn vol depth height width = some st ∧
      st.min = .num a ∧ st.max = .num b ∧ st.mean = .num m ∧
      a ≤ m ∧ m ≤ b ∧ st.stdDev = .num r ∧ 0 ≤ r := by
  have hvol : vol ≠ [] := by
    intro h
    rw [h, sampledValues_nil] at hne
    exact hne rfl
  set xs := sampledValues vol depth height width with hxs
  obtain ⟨qmin, hqmin_eq, hqmin_le⟩ := foldl_jsMin_inf xs hne
  obtain ⟨qmax, hqmax_eq, hqmax_ge⟩ := foldl_jsMax_inf xs hne
  have hlen : xs.length ≠ 0 := fun h => hne (List.length_eq_zero.mp h)
  have hlenQ : ((xs.length : ℚ)) ≠ 0 := Nat.cast_ne_zero.mpr hlen
  have hlenpos : (0 : ℚ) < (xs.length : ℚ) := Nat.cast_pos.mpr (Nat.pos_of_ne_zero hlen)
  set mm := xs.sum / (xs.length : ℚ) with hmm
  have hmean : jsDiv (.num xs.sum) (.num (xs.length : ℚ)) = .num mm := by
    simp [jsDiv, hlenQ]
  set v := xs.foldl (fun acc x => acc + (x + -mm) * (x + -mm)) 0 with hv
  have hvar :
      xs.foldl
          (fun acc x =>
            jsAdd acc (jsMul (jsSub (.num x) (.num mm)) (jsSub (.num x) (.num mm))))
          (.num 0) = .num v := foldl_var_num xs mm 0
  have hv0 : 0 ≤ v := foldl_var_nonneg xs mm 0 le_rfl
  have hstdarg : jsDiv (.num v) (.num (xs.length : ℚ)) = .num (v / (xs.length : ℚ)) := by
    simp [jsDiv, hlenQ]
  obtain ⟨r, hr0, hreq⟩ :=
    (hs.2.2.2 (v / (xs.length : ℚ))).2 (div_nonneg hv0 (le_of_lt hlenpos))
  have hmin_le_mean : qmin ≤ mm := by
    rw [hmm, le_div_iff₀ hlenpos]
    have := length_mul_le_sum xs qmin hqmin_le
    linarith
  have hmean_le_max : mm ≤ qmax := by
    rw [hmm, div_le_iff₀ hlenpos]
    have := sum_le_length_mul xs qmax hqmax_ge
    linarith
  refine ⟨⟨.num qmin, .num qmax, .num mm, .num r, xs.length⟩, qmin, qmax, mm, r, ?_, rfl, rfl,
    rfl, hmin_le_mean, hmean_le_max, rfl, hr0⟩
  simp only [volumeStats]
  rw [if_neg hvol, ← hxs, hmean, hvar, hstdarg, hreq, hqmin_eq, hqmax_eq]

theorem volumeStats_bounds_witness :
    IsJsSqrt jsSqrtModel ∧ sampledValues [[[5, 3]]] 1 1 2 ≠ [] ∧
    (∃ (st : VolumeStats) (a b m r : ℚ),
      volumeStats jsSqrtModel [[[5, 3]]] 1 1 2 = some st ∧
      st.min = .num a ∧ st.max = .num b ∧ st.mean = .num m ∧
      a ≤ m ∧ m ≤ b ∧ st.stdDev = .num r ∧ 0 ≤ r) :=
  ⟨jsSqrtModel_isJsSqrt, by decide,
    volumeStats_bounds jsSqrtModel jsSqrtModel_isJsSqrt [[[5, 3]]] 1 1 2 (by decide)⟩
